import Mathlib

/-!
Shallow embedding of the browsary-cloud-client sources
(`src/lib/index.ts`, `src/lib/base62.ts`).

Pure functions are translated directly.  The WHATWG `URL` platform class
used by the source is modelled by `URLRecord` together with the
state-override rules of the WHATWG basic URL parser that govern its
property setters, restricted to ASCII input (IDNA and percent-encoding of
hosts and userinfo are identities on the ASCII inputs the claims range
over).  HTTP responses are modelled by the observations the source makes
of them (`ok`, the `content-type` header, `text()`, `json()`); thrown
JavaScript errors are modelled by the `JsError` type returned through
`Except`.  Arbitrary-precision JS `BigInt` arithmetic is modelled by `Nat`.
-/

namespace Browsary

/-- JSON values, as produced by `response.json()` / `JSON.parse`.
JSON numbers are modelled as integers; no verified property reads a
numeric field. -/
inductive Json where
  | null : Json
  | bool (b : Bool) : Json
  | num (n : Int) : Json
  | str (s : String) : Json
  | arr (elems : List Json) : Json
  | obj (fields : List (String × Json)) : Json

/-- Property access `v.key` on a parsed JSON value: a field of an object,
`undefined` (here `none`) otherwise. -/
def Json.getField : Json → String → Option Json
  | .obj fields, key => (fields.find? (fun f => f.1 == key)).map (fun f => f.2)
  | _, _ => none

/-- The JS `String(v)` conversion applied by the `Error` constructor to a
non-string message argument.  (The `Array.prototype.join` special case
mapping null elements to the empty string is not distinguished by any
verified property.) -/
def jsToString : Json → String
  | .null => "null"
  | .bool true => "true"
  | .bool false => "false"
  | .num n => toString n
  | .str s => s
  | .arr elems => String.intercalate "," (elems.attach.map (fun e => jsToString e.1))
  | .obj _ => "[object Object]"
decreasing_by
  simp_wf
  have h := List.sizeOf_lt_of_mem e.2
  omega

/-- Thrown JavaScript errors, by kind. -/
inductive JsError where
  | clientError (message : String) : JsError
  | plainError (message : String) : JsError
  | typeError : JsError
  | syntaxError : JsError
deriving DecidableEq

/-- An HTTP response, modelled by the observations `handleError`,
`handleJsonResponse` and `handleStreamResponse` make of it: `ok`
(2xx status), `headers.get("content-type")`, `text()` and `json()`
(`none` when the body is not valid JSON, in which case `json()`
rejects with a `SyntaxError`). -/
structure Response where
  ok : Bool
  contentType : Option String
  bodyText : String
  bodyJson : Option Json

/-- Models `response.headers.get("content-type")?.startsWith("application/json")`:
an absent header yields `undefined`, which is falsy. -/
def contentTypeIsJson (r : Response) : Bool :=
  match r.contentType with
  | some ct => "application/json".data.isPrefixOf ct.data
  | none => false

/-- `handleError` from `src/lib/index.ts`: on a non-JSON `content-type`
throw `BrowserClientError(await response.text())`; otherwise destructure
`const { error } = await response.json()` and throw
`BrowserClientError(error)` (an absent `error` field passes `undefined`,
leaving the `Error` message empty; a non-string field is converted by
`String`; a null body makes the destructuring throw a `TypeError`; an
unparsable body makes `response.json()` reject with a `SyntaxError`). -/
def handleError (r : Response) : JsError :=
  if contentTypeIsJson r then
    match r.bodyJson with
    | none => .syntaxError
    | some Json.null => .typeError
    | some j =>
      match j.getField "error" with
      | some (Json.str msg) => .clientError msg
      | some v => .clientError (jsToString v)
      | none => .clientError ""
  else .clientError r.bodyText

/-- `handleJsonResponse`: on `response.ok` parse the body as JSON,
otherwise defer to `handleError`. -/
def handleJsonResponse (r : Response) : Except JsError Json :=
  if r.ok then
    match r.bodyJson with
    | some j => .ok j
    | none => .error .syntaxError
  else .error (handleError r)

/-- `handleStreamResponse`: on `response.ok` return the raw body stream
(modelled by its byte content), otherwise defer to `handleError`. -/
def handleStreamResponse (r : Response) : Except JsError String :=
  if r.ok then .ok r.bodyText
  else .error (handleError r)

/-! ## The WHATWG `URL` model -/

/-- The components of a WHATWG `URL` object read or written by the source:
`protocol` (without the trailing colon), `username`, `hostname`, `port`
(`""` for the null port) and the serialized path. -/
structure URLRecord where
  scheme : String
  username : String
  hostname : String
  port : String
  path : String
deriving DecidableEq

/-- The special schemes of the WHATWG URL standard. -/
def specialSchemes : List String := ["ftp", "file", "http", "https", "ws", "wss"]

def isSpecial (scheme : String) : Bool := specialSchemes.contains scheme

/-- Default ports of the special schemes. -/
def defaultPort? : String → Option Nat
  | "ftp" => some 21
  | "http" => some 80
  | "https" => some 443
  | "ws" => some 80
  | "wss" => some 443
  | _ => none

/-- Forbidden host code points of the WHATWG URL standard (for ASCII
input): a host string containing one of these fails to parse. -/
def forbiddenHostChars : List Char :=
  ['\x00', '\t', '\n', '\r', ' ', '#', '/', ':', '<', '>', '?', '@', '[', '\\', ']', '^', '|']

/-- ASCII lowercasing, as applied by host parsing to ASCII domains. -/
def asciiLowerChar (c : Char) : Char :=
  if 'A' ≤ c ∧ c ≤ 'Z' then Char.ofNat (c.toNat + 32) else c

def asciiLower (s : String) : String := String.mk (s.data.map asciiLowerChar)

/-- The `url.hostname` setter: host parsing fails (leaving the URL
unchanged) on a forbidden host code point, or on an empty host for a
special scheme; otherwise the ASCII host is lowercased and stored. -/
def setHostname (u : URLRecord) (h : String) : URLRecord :=
  if h.data.any (fun c => forbiddenHostChars.contains c) then u
  else if h = "" ∧ isSpecial u.scheme then u
  else { u with hostname := asciiLower h }

/-- The decimal value of a digit string, as read by the port state of the
basic URL parser. -/
def portDigitsVal (cs : List Char) : Nat :=
  cs.foldl (fun a c => a * 10 + (c.toNat - 48)) 0

/-- The `url.port` setter: no effect when the URL cannot have a port
(empty host, or `file` scheme); an empty string clears the port;
otherwise the leading digits are parsed, out-of-range or digit-free
values are ignored, and a value equal to the scheme's default port
clears the port. -/
def setPort (u : URLRecord) (p : String) : URLRecord :=
  if u.hostname = "" ∨ u.scheme = "file" then u
  else if p = "" then { u with port := "" }
  else
    let digits := p.data.takeWhile Char.isDigit
    if digits = [] then u
    else
      let n := portDigitsVal digits
      if n > 65535 then u
      else if defaultPort? u.scheme = some n then { u with port := "" }
      else { u with port := toString n }

/-- The scheme buffer read from an assigned `protocol` value: the
characters before the trailing colon. -/
def stripColon (s : String) : String :=
  if s.data.getLast? = some ':' then String.mk s.data.dropLast else s

/-- The `url.protocol` setter (scheme-state with state override): the
assignment is silently ignored when it would move between a special and
a non-special scheme, when moving a URL with credentials or a port to
`file`, or when moving away from `file` with an empty host; after a
successful change a port equal to the new scheme's default is cleared. -/
def setProtocol (u : URLRecord) (v : String) : URLRecord :=
  let b := stripColon v
  if isSpecial u.scheme ≠ isSpecial b then u
  else if (u.username ≠ "" ∨ u.port ≠ "") ∧ b = "file" then u
  else if u.scheme = "file" ∧ u.hostname = "" then u
  else
    let u' := { u with scheme := b }
    match defaultPort? b with
    | some d => if u'.port = toString d then { u' with port := "" } else u'
    | none => u'

/-- The `url.username` setter: no effect when the URL cannot have a
username (empty host or `file` scheme); userinfo percent-encoding is the
identity on the ASCII-safe inputs used by the source. -/
def setUsername (u : URLRecord) (s : String) : URLRecord :=
  if u.hostname = "" ∨ u.scheme = "file" then u
  else { u with username := s }

/-- Models `new URL(scheme ++ "://" ++ host)` for a special scheme and a
plain host string: parsing throws a `TypeError` on an empty or invalid
host; a well-formed ASCII host is lowercased, the port is null and the
path is `/`.  (Host strings containing URL delimiter characters, which
would be split into further components, are outside the modelled range
and conservatively reported as a parse failure.) -/
def parseSchemeHost (scheme host : String) : Except JsError URLRecord :=
  if host = "" ∨ host.data.any (fun c => forbiddenHostChars.contains c) then
    .error .typeError
  else
    .ok { scheme := scheme, username := "", hostname := asciiLower host, port := "", path := "/" }

/-! ## The data model of `src/lib/index.ts` -/

structure ProxyInfo where
  suffix : String
  apiUrl : String
  servers : List String
deriving DecidableEq

structure KernelInfo where
  type : String
  version : String
deriving DecidableEq

structure ServerOsInfo where
  version : String
  kernel : KernelInfo
deriving DecidableEq

/-- JS numbers of the telemetry records are modelled as integers; no
verified property reads them. -/
structure ServerMemoryInfo where
  percentage : Int
  free : Int
  total : Int
deriving DecidableEq

structure ServerCpuTimes where
  user : Int
  nice : Int
  sys : Int
  idle : Int
  irq : Int
deriving DecidableEq

structure ServerCpu where
  model : String
  speed : Int
  times : ServerCpuTimes
deriving DecidableEq

structure ServerCpuInfo where
  amount : Nat
  load : Int × Int × Int
  cpus : List ServerCpu
deriving DecidableEq

structure ServerInfo where
  id : String
  secure : Bool
  ip : Option String
  proxy : Option ProxyInfo
  name : String
  os : ServerOsInfo
  memory : ServerMemoryInfo
  cpu : ServerCpuInfo
deriving DecidableEq

structure ContainerServices where
  vnc : String
  remote : String
  ssh : String
deriving DecidableEq

/-- `BrowserServiceContainer & { name: string }`, the argument type of the
URL-building methods. -/
structure NamedServiceContainer where
  password : String
  services : ContainerServices
  name : String
deriving DecidableEq

structure ScreenSize where
  height : Nat
  width : Nat
deriving DecidableEq

structure BrowserContainerCreateDetails where
  password : String
  screen : ScreenSize
  name : String
  args : String
  coordinatorUrl : String
  image : String
deriving DecidableEq

/-- `Omit<BrowserContainerCreateDetails, "coordinatorUrl">`. -/
structure BrowserContainerCreateConfig where
  password : String
  screen : ScreenSize
  name : String
  args : String
  image : String
deriving DecidableEq

def withCoordinatorUrl (c : BrowserContainerCreateConfig) (url : String) :
    BrowserContainerCreateDetails :=
  { password := c.password, screen := c.screen, name := c.name,
    args := c.args, coordinatorUrl := url, image := c.image }

/-! ## `BrowserClient` methods -/

/-- The HTTP requests a client call can issue, identified by endpoint. -/
inductive HttpReq where
  | root : HttpReq
  | scores : HttpReq
deriving DecidableEq

/-- `BrowserClient.vncUrl`, given the freshly fetched `ServerInfo`:
proxy mode builds `new URL((secure ? "wss" : "ws") ++ "://vnc-" ++ name ++ suffix)`;
direct mode clones the base URL, asserts `info.ip`, and sets hostname,
port and protocol in that order. -/
def vncUrl (base : URLRecord) (info : ServerInfo) (c : NamedServiceContainer) :
    Except JsError URLRecord :=
  match info.proxy with
  | some proxy =>
    let scheme := if info.secure then "wss" else "ws"
    let host := "vnc-" ++ c.name ++ proxy.suffix
    parseSchemeHost scheme host
  | none =>
    match info.ip with
    | none => .error (.plainError "info.ip")
    | some ip =>
      let url := setHostname base ip
      let url := setPort url c.services.vnc
      let url := setProtocol url (if info.secure then "wss:" else "ws:")
      .ok url

/-- `BrowserClient.remoteUrl`: as `vncUrl` with the hostname template
`remote-{password}-{name}{suffix}` and the `https`/`http` schemes. -/
def remoteUrl (base : URLRecord) (info : ServerInfo) (c : NamedServiceContainer) :
    Except JsError URLRecord :=
  match info.proxy with
  | some proxy =>
    let scheme := if info.secure then "https" else "http"
    let host := "remote-" ++ c.password ++ "-" ++ c.name ++ proxy.suffix
    parseSchemeHost scheme host
  | none =>
    match info.ip with
    | none => .error (.plainError "info.ip")
    | some ip =>
      let url := setHostname base ip
      let url := setPort url c.services.remote
      let url := setProtocol url (if info.secure then "https:" else "http:")
      .ok url

/-- `BrowserClient.sshUrl`: throws in proxy mode; direct mode clones the
base URL, asserts `info.ip`, and sets hostname, port, protocol (`ssh:`)
and username (`runner`) in that order. -/
def sshUrl (base : URLRecord) (info : ServerInfo) (c : NamedServiceContainer) :
    Except JsError URLRecord :=
  match info.proxy with
  | some _ => .error (.plainError "SSH access is not available via proxy")
  | none =>
    match info.ip with
    | none => .error (.plainError "info.ip")
    | some ip =>
      let url := setHostname base ip
      let url := setPort url c.services.ssh
      let url := setProtocol url "ssh:"
      let url := setUsername url "runner"
      .ok url

/-- `BrowserClient.serverScores`, with its request trace: the method first
awaits `serverInfo()` (a `GET /`, whose successfully parsed body is the
`info` argument), then throws a plain error when `info.proxy` is absent,
and only otherwise issues the `GET /scores` request, whose response is
decoded by `handleJsonResponse`. -/
def serverScores (info : ServerInfo) (scoresResponse : Response) :
    List HttpReq × Except JsError Json :=
  match info.proxy with
  | none => ([HttpReq.root],
      .error (.plainError "This server does not support proxy scores."))
  | some _ => ([HttpReq.root, HttpReq.scores], handleJsonResponse scoresResponse)

/-- `vncUrl` with its request trace: the single request the method issues
is the `serverInfo()` fetch of `GET /`. -/
def vncUrlCall (base : URLRecord) (info : ServerInfo) (c : NamedServiceContainer) :
    List HttpReq × Except JsError URLRecord :=
  ([HttpReq.root], vncUrl base info c)

def remoteUrlCall (base : URLRecord) (info : ServerInfo) (c : NamedServiceContainer) :
    List HttpReq × Except JsError URLRecord :=
  ([HttpReq.root], remoteUrl base info c)

def sshUrlCall (base : URLRecord) (info : ServerInfo) (c : NamedServiceContainer) :
    List HttpReq × Except JsError URLRecord :=
  ([HttpReq.root], sshUrl base info c)

/-! ## `RemoteBrowserProvider` -/

/-- A live puppeteer `Browser` handle: an identity plus its `connected`
flag. -/
structure Browser where
  id : Nat
  connected : Bool
deriving DecidableEq

inductive ReleaseMode where
  | close : ReleaseMode
  | disconnect : ReleaseMode
deriving DecidableEq

/-- `RemoteBrowserConfig`: a bare `{name}` or create details without the
coordinator URL. -/
inductive RemoteBrowserConfig where
  | byName (name : String) : RemoteBrowserConfig
  | create (details : BrowserContainerCreateConfig) : RemoteBrowserConfig
deriving DecidableEq

/-- Models the `"args" in config` test: only the create-details shape has
an `args` property. -/
def isCreateDetails : RemoteBrowserConfig → Bool
  | .create _ => true
  | .byName _ => false

def RemoteBrowserConfig.name : RemoteBrowserConfig → String
  | .byName n => n
  | .create d => d.name

/-- The provider's mutable state: the stored default config and the
`WeakMap<Browser, "close" | "disconnect">` association table, modelled as
an assoc list whose most recent entry for a key shadows older ones. -/
structure RemoteBrowserProviderState where
  defaultConfig : RemoteBrowserConfig
  clients : List (Browser × ReleaseMode)

def clientsLookup (m : List (Browser × ReleaseMode)) (b : Browser) : Option ReleaseMode :=
  (m.find? (fun e => decide (e.1 = b))).map (fun e => e.2)

def clientsSet (m : List (Browser × ReleaseMode)) (b : Browser) (mode : ReleaseMode) :
    List (Browser × ReleaseMode) :=
  (b, mode) :: m

/-- The container-resolution and liveness effects `getBrowser` performs
before constructing the handle. -/
inductive ProviderOp where
  | createContainer (details : BrowserContainerCreateDetails) : ProviderOp
  | getContainer (name : String) : ProviderOp
  | fetchServerInfo : ProviderOp
  | waitForServiceStatus (name service status : String) : ProviderOp
deriving DecidableEq

/-- `RemoteBrowserProvider.getBrowser`: resolve the effective config
(`config ??= this.#default`), derive `shouldClose` from its shape, resolve
the container (`create` with the coordinator URL injected, or `get` by
name), compute the remote URL (which fetches server info), wait for the
`remote` service to be `running`, obtain the handle from the factory
(supplied here as `browser`), and record the release mode against it. -/
def getBrowser (st : RemoteBrowserProviderState) (explicitConfig : Option RemoteBrowserConfig)
    (coordinatorUrl : String) (browser : Browser) :
    List ProviderOp × RemoteBrowserProviderState × Browser :=
  let config := explicitConfig.getD st.defaultConfig
  let shouldClose := isCreateDetails config
  let resolveOp := match config with
    | .create d => ProviderOp.createContainer (withCoordinatorUrl d coordinatorUrl)
    | .byName n => ProviderOp.getContainer n
  let trace := [resolveOp, ProviderOp.fetchServerInfo,
    ProviderOp.waitForServiceStatus config.name "remote" "running"]
  let st' := { st with
    clients := clientsSet st.clients browser (if shouldClose then .close else .disconnect) }
  (trace, st', browser)

/-- The action `releaseBrowser` takes on the handle. -/
inductive ReleaseAction where
  | nothing : ReleaseAction
  | close : ReleaseAction
  | disconnect : ReleaseAction
deriving DecidableEq

/-- `RemoteBrowserProvider.releaseBrowser`: a no-op on a disconnected
handle; otherwise `close` exactly when the association table records
`"close"`, and `disconnect` in every other case (including an absent
entry). -/
def releaseBrowser (st : RemoteBrowserProviderState) (browser : Browser) : ReleaseAction :=
  if browser.connected = false then .nothing
  else
    match clientsLookup st.clients browser with
    | some .close => .close
    | _ => .disconnect

/-! ## `src/lib/base62.ts` -/

def BASE62_ALPHABET : List Char :=
  "0123456789ABCDEFGHIJKLMNOPQRSTUVWXYZabcdefghijklmnopqrstuvwxyz".data

/-- `BASE62_ALPHABET[i]` (indexing is always in range at use sites, where
`i` is a remainder mod 62). -/
def base62Char (i : Nat) : Char := BASE62_ALPHABET.getD i '*'

/-- A `while (num > 0)` division loop building the big-endian digit string
of `num` in the given base, embedded with explicit fuel ≥ `num` + 1
(enough iterations, since `num` strictly shrinks).  Instantiated at base
62 for the loop of `encodeUuidToBase62` and at base 16 for
`BigInt.prototype.toString(16)`. -/
def toDigitsLoop (base : Nat) (digitChar : Nat → Char) : Nat → Nat → List Char → List Char
  | 0, _, acc => acc
  | fuel + 1, num, acc =>
    if num = 0 then acc
    else toDigitsLoop base digitChar fuel (num / base) (digitChar (num % base) :: acc)

/-- The base62 digit string of `n`, with the `result || "0"` fallback of
the source. -/
def encodeNat62 (n : Nat) : String :=
  let result := toDigitsLoop 62 base62Char (n + 1) n []
  if result = [] then "0" else String.mk result

def HEX_LOWER : List Char := "0123456789abcdef".data

def HEX_UPPER : List Char := "0123456789ABCDEF".data

/-- The value of a hex digit as accepted by a `BigInt` `0x` literal
(either case). -/
def hexVal? (c : Char) : Option Nat :=
  match HEX_LOWER.findIdx? (fun x => x == c) with
  | some i => some i
  | none => HEX_UPPER.findIdx? (fun x => x == c)

/-- The big-endian hex accumulation performed by `BigInt("0x" ++ hex)`;
`none` models the `SyntaxError` thrown on a non-hex character. -/
def parseHexLoop : List Char → Nat → Option Nat
  | [], num => some num
  | c :: rest, num =>
    match hexVal? c with
    | none => none
    | some v => parseHexLoop rest (num * 16 + v)

/-- Lowercase hex digit characters, as produced by `toString(16)`. -/
def hexChar (d : Nat) : Char := HEX_LOWER.getD d '*'

/-- `num.toString(16)`: `"0"` for zero, otherwise the big-endian lowercase
hex digits. -/
def toHexChars (n : Nat) : List Char :=
  let result := toDigitsLoop 16 hexChar (n + 1) n []
  if result = [] then ['0'] else result

/-- `hex.padStart(32, "0")`. -/
def padStart32 (cs : List Char) : List Char :=
  List.replicate (32 - cs.length) '0' ++ cs

/-- The hyphen insertion
`` `${hex.slice(0,8)}-${hex.slice(8,12)}-${hex.slice(12,16)}-${hex.slice(16,20)}-${hex.slice(20)}` ``. -/
def hyphenate (cs : List Char) : List Char :=
  cs.take 8 ++ '-' :: ((cs.drop 8).take 4 ++ '-' :: ((cs.drop 12).take 4 ++ '-' ::
    ((cs.drop 16).take 4 ++ '-' :: cs.drop 20)))

/-- `encodeUuidToBase62`: strip hyphens, require 32 remaining characters,
parse as a hex `BigInt` (throwing a `SyntaxError` on a non-hex character),
and emit base62 digits. -/
def encodeUuidToBase62 (uuid : String) : Except String String :=
  let hex := uuid.data.filter (fun c => c != '-')
  if hex.length ≠ 32 then .error "Invalid UUID format"
  else
    match parseHexLoop hex 0 with
    | none => .error "Cannot convert string to a BigInt"
    | some n => .ok (encodeNat62 n)

/-- The character loop of `decodeBase62ToUuid`: `indexOf` failure (JS `-1`)
throws the invalid-character error, otherwise the value is accumulated. -/
def decodeLoop : List Char → Nat → Except String Nat
  | [], num => .ok num
  | c :: rest, num =>
    match BASE62_ALPHABET.findIdx? (fun x => x == c) with
    | none => .error ("Invalid base62 character: " ++ toString c)
    | some index => decodeLoop rest (num * 62 + index)

/-- `decodeBase62ToUuid`: accumulate the base62 value, render it as hex,
pad to 32 digits and hyphenate. -/
def decodeBase62ToUuid (base62 : String) : Except String String :=
  match decodeLoop base62.data 0 with
  | .error e => .error e
  | .ok num => .ok (String.mk (hyphenate (padStart32 (toHexChars num))))

/-- The canonical hyphenated form of a UUID: 32 lowercase hex digits in
8-4-4-4-12 grouping. -/
def CanonicalUuid (u : String) : Prop :=
  ∃ cs : List Char, cs.length = 32 ∧ (∀ c ∈ cs, c ∈ HEX_LOWER) ∧ u.data = hyphenate cs

def zeroUuid : String := "00000000-0000-0000-0000-000000000000"

/-! ## Verified properties -/

/-- C1: for every non-success response, when the `content-type` header
does not indicate `application/json` both response handlers raise a
`BrowserClientError` whose message is the raw body text verbatim; when it
does, and the body parses to a JSON value whose `error` field is the
string `msg`, both handlers raise a `BrowserClientError` whose message is
`msg`. -/
theorem c1_error_messages (r : Response) (hok : r.ok = false) :
    (contentTypeIsJson r = false →
      handleJsonResponse r = .error (.clientError r.bodyText) ∧
      handleStreamResponse r = .error (.clientError r.bodyText)) ∧
    (∀ j msg, contentTypeIsJson r = true → r.bodyJson = some j →
      j.getField "error" = some (Json.str msg) →
      handleJsonResponse r = .error (.clientError msg) ∧
      handleStreamResponse r = .error (.clientError msg)) := by
  constructor
  · intro hct
    simp [handleJsonResponse, handleStreamResponse, handleError, hok, hct]
  · intro j msg hct hj hf
    cases j with
    | obj fields =>
      constructor <;>
        simp [handleJsonResponse, handleStreamResponse, handleError, hok, hct, hj, hf]
    | null => simp [Json.getField] at hf
    | bool b => simp [Json.getField] at hf
    | num n => simp [Json.getField] at hf
    | str s => simp [Json.getField] at hf
    | arr es => simp [Json.getField] at hf

def sampleErrResponse : Response :=
  { ok := false, contentType := some "application/json; charset=utf-8",
    bodyText := "\x7b\x22error\x22: \x22boom\x22\x7d",
    bodyJson := some (Json.obj [("error", Json.str "boom")]) }

theorem c1_error_messages_witness :
    handleJsonResponse sampleErrResponse = .error (.clientError "boom") ∧
    handleStreamResponse sampleErrResponse = .error (.clientError "boom") :=
  (c1_error_messages sampleErrResponse rfl).2
    (Json.obj [("error", Json.str "boom")]) "boom" rfl rfl rfl

/-- C6: the release mode `getBrowser` records against the returned handle
is `close` when the effective config (the explicit argument, else the
stored default) is the create-details shape, and `disconnect` when it is
the name-only shape. -/
theorem c6_release_mode_recorded (st : RemoteBrowserProviderState)
    (explicitConfig : Option RemoteBrowserConfig) (coordinatorUrl : String)
    (browser : Browser) :
    (∀ d, explicitConfig.getD st.defaultConfig = .create d →
      clientsLookup (getBrowser st explicitConfig coordinatorUrl browser).2.1.clients
        browser = some .close) ∧
    (∀ n, explicitConfig.getD st.defaultConfig = .byName n →
      clientsLookup (getBrowser st explicitConfig coordinatorUrl browser).2.1.clients
        browser = some .disconnect) := by
  constructor
  · intro d hd
    simp [getBrowser, clientsLookup, clientsSet, hd, isCreateDetails, List.find?]
  · intro n hn
    simp [getBrowser, clientsLookup, clientsSet, hn, isCreateDetails, List.find?]

def sampleCreateConfig : BrowserContainerCreateConfig :=
  { password := "secret", screen := { height := 720, width := 1280 },
    name := "test-browser", args := "", image := "browsary:latest" }

def sampleProviderState : RemoteBrowserProviderState :=
  { defaultConfig := RemoteBrowserConfig.byName "test-browser", clients := [] }

def sampleBrowser : Browser := { id := 7, connected := true }

theorem c6_release_mode_recorded_witness :
    clientsLookup (getBrowser sampleProviderState
        (some (.create sampleCreateConfig)) "http://coord" sampleBrowser).2.1.clients
      sampleBrowser = some .close ∧
    clientsLookup (getBrowser sampleProviderState none "http://coord"
        sampleBrowser).2.1.clients sampleBrowser = some .disconnect :=
  ⟨(c6_release_mode_recorded sampleProviderState (some (.create sampleCreateConfig))
      "http://coord" sampleBrowser).1 sampleCreateConfig rfl,
   (c6_release_mode_recorded sampleProviderState none "http://coord"
      sampleBrowser).2 "test-browser" rfl⟩

/-- C9: a connected handle with no entry in the association table is
disconnected by `releaseBrowser`, never closed: the absent-entry case
takes the same branch as the `disconnect` release mode. -/
theorem c9_unknown_handle_disconnects (st : RemoteBrowserProviderState)
    (browser : Browser) (hconn : browser.connected = true)
    (hmiss : clientsLookup st.clients browser = none) :
    releaseBrowser st browser = .disconnect := by
  simp [releaseBrowser, hconn, hmiss]

theorem c9_unknown_handle_disconnects_witness :
    releaseBrowser sampleProviderState sampleBrowser = .disconnect :=
  c9_unknown_handle_disconnects sampleProviderState sampleBrowser rfl rfl

/-! ## URL construction -/

/-- A host string wholly within the modelled ASCII range: nonempty, free
of forbidden host code points, and fixed by ASCII lowercasing. -/
def GoodHost (h : String) : Prop :=
  h ≠ "" ∧ h.data.any (fun c => forbiddenHostChars.contains c) = false ∧ asciiLower h = h

/-- A well-formed port string: nonempty, all decimal digits, in range and
in canonical form (no leading zeros). -/
def GoodPort (p : String) : Prop :=
  p ≠ "" ∧ p.data.takeWhile Char.isDigit = p.data ∧
  portDigitsVal p.data ≤ 65535 ∧ toString (portDigitsVal p.data) = p

/-- The direct-mode setter chain shared by `vncUrl`, `remoteUrl` and
`sshUrl`: on a special non-`file` base URL, a well-formed host and port,
and a special non-`file` target scheme whose default port (and the base
scheme's default port) differ from the assigned one, the chain replaces
exactly the hostname, port and scheme of the base URL. -/
theorem build_direct (base : URLRecord) (ip p target tc : String)
    (hip : GoodHost ip) (hport : GoodPort p)
    (hspec : isSpecial base.scheme = true) (hnfile : base.scheme ≠ "file")
    (htc : stripColon tc = target) (htspec : isSpecial target = true)
    (htfile : target ≠ "file")
    (hnd1 : Option.all (fun d => p != toString d) (defaultPort? base.scheme) = true)
    (hnd2 : Option.all (fun d => p != toString d) (defaultPort? target) = true) :
    setProtocol (setPort (setHostname base ip) p) tc =
      { base with hostname := ip, port := p, scheme := target } := by
  obtain ⟨hip1, hip2, hip3⟩ := hip
  obtain ⟨hp1, hp2, hp3, hp4⟩ := hport
  have hpdata : p.data ≠ [] := by
    intro h
    exact hp1 (String.ext h)
  have h1 : setHostname base ip = { base with hostname := ip } := by
    unfold setHostname
    rw [if_neg (by rw [hip2]; exact Bool.false_ne_true),
      if_neg (by simp [hip1]), hip3]
  have hd1 : defaultPort? base.scheme ≠ some (portDigitsVal p.data) := by
    intro h
    rw [h] at hnd1
    simp only [Option.all] at hnd1
    exact (bne_iff_ne.mp hnd1) hp4.symm
  have h2 : setPort { base with hostname := ip } p =
      { base with hostname := ip, port := p } := by
    simp only [setPort, hp2]
    rw [if_neg, if_neg, if_neg, if_neg, if_neg]
    · rw [hp4]
    · exact hd1
    · omega
    · exact hpdata
    · exact hp1
    · simp [hip1, hnfile]
  have h3 : setProtocol { base with hostname := ip, port := p } tc =
      { base with hostname := ip, port := p, scheme := target } := by
    simp only [setProtocol, htc]
    rw [if_neg, if_neg, if_neg]
    · cases hdp : defaultPort? target with
      | none => rfl
      | some d =>
        rw [hdp] at hnd2
        simp only [Option.all] at hnd2
        simp only []
        rw [if_neg]
        exact bne_iff_ne.mp hnd2
    · simp [hnfile]
    · simp [htfile]
    · simp [hspec, htspec]
  rw [h1, h2, h3]

/-- C2: with a proxy descriptor, `vncUrl` returns the URL
`(wss|ws)://vnc-{name}{proxySuffix}` with the scheme chosen by `secure`;
without one, it returns the base URL with its hostname replaced by the
server's direct IP, its port set to the container's VNC port and its
scheme set to `wss`/`ws` by `secure`; the direct branch fails with a
plain error when the info has no IP. -/
theorem c2_vncUrl (base : URLRecord) (info : ServerInfo) (c : NamedServiceContainer) :
    (∀ proxy, info.proxy = some proxy →
      GoodHost ("vnc-" ++ c.name ++ proxy.suffix) →
      vncUrl base info c = .ok
        { scheme := if info.secure then "wss" else "ws", username := "",
          hostname := "vnc-" ++ c.name ++ proxy.suffix, port := "", path := "/" }) ∧
    (∀ ip, info.proxy = none → info.ip = some ip →
      GoodHost ip → GoodPort c.services.vnc →
      isSpecial base.scheme = true → base.scheme ≠ "file" →
      Option.all (fun d => c.services.vnc != toString d) (defaultPort? base.scheme) = true →
      Option.all (fun d => c.services.vnc != toString d)
        (defaultPort? (if info.secure then "wss" else "ws")) = true →
      vncUrl base info c = .ok
        { base with
          hostname := ip,
          port := c.services.vnc,
          scheme := if info.secure then "wss" else "ws" }) ∧
    (info.proxy = none → info.ip = none →
      vncUrl base info c = .error (.plainError "info.ip")) := by
  refine ⟨?_, ?_, ?_⟩
  · intro proxy hproxy hhost
    obtain ⟨hh1, hh2, hh3⟩ := hhost
    simp only [vncUrl, hproxy]
    unfold parseSchemeHost
    rw [if_neg (by rw [hh2]; simp [hh1]), hh3]
  · intro ip hproxy hip hgh hgp hspec hnfile hnd1 hnd2
    simp only [vncUrl, hproxy, hip]
    cases hsec : info.secure with
    | true =>
      show Except.ok (setProtocol (setPort (setHostname base ip) c.services.vnc) "wss:") = _
      rw [build_direct base ip c.services.vnc "wss" "wss:" hgh hgp hspec hnfile
        (by decide) (by decide) (by decide) hnd1 (by rw [hsec] at hnd2; exact hnd2)]
      rfl
    | false =>
      show Except.ok (setProtocol (setPort (setHostname base ip) c.services.vnc) "ws:") = _
      rw [build_direct base ip c.services.vnc "ws" "ws:" hgh hgp hspec hnfile
        (by decide) (by decide) (by decide) hnd1 (by rw [hsec] at hnd2; exact hnd2)]
      rfl
  · intro hproxy hip
    simp [vncUrl, hproxy, hip]

/-- C3: with a proxy descriptor, `remoteUrl` returns the URL
`(https|http)://remote-{password}-{name}{proxySuffix}` with the scheme
chosen by `secure`; without one, it returns the base URL with its
hostname replaced by the direct IP, its port set to the container's
remote port and its scheme set to `https`/`http` by `secure`, failing
with a plain error when the IP is absent. -/
theorem c3_remoteUrl (base : URLRecord) (info : ServerInfo) (c : NamedServiceContainer) :
    (∀ proxy, info.proxy = some proxy →
      GoodHost ("remote-" ++ c.password ++ "-" ++ c.name ++ proxy.suffix) →
      remoteUrl base info c = .ok
        { scheme := if info.secure then "https" else "http", username := "",
          hostname := "remote-" ++ c.password ++ "-" ++ c.name ++ proxy.suffix,
          port := "", path := "/" }) ∧
    (∀ ip, info.proxy = none → info.ip = some ip →
      GoodHost ip → GoodPort c.services.remote →
      isSpecial base.scheme = true → base.scheme ≠ "file" →
      Option.all (fun d => c.services.remote != toString d) (defaultPort? base.scheme) = true →
      Option.all (fun d => c.services.remote != toString d)
        (defaultPort? (if info.secure then "https" else "http")) = true →
      remoteUrl base info c = .ok
        { base with
          hostname := ip,
          port := c.services.remote,
          scheme := if info.secure then "https" else "http" }) ∧
    (info.proxy = none → info.ip = none →
      remoteUrl base info c = .error (.plainError "info.ip")) := by
  refine ⟨?_, ?_, ?_⟩
  · intro proxy hproxy hhost
    obtain ⟨hh1, hh2, hh3⟩ := hhost
    simp only [remoteUrl, hproxy]
    unfold parseSchemeHost
    rw [if_neg (by rw [hh2]; simp [hh1]), hh3]
  · intro ip hproxy hip hgh hgp hspec hnfile hnd1 hnd2
    simp only [remoteUrl, hproxy, hip]
    cases hsec : info.secure with
    | true =>
      show Except.ok
        (setProtocol (setPort (setHostname base ip) c.services.remote) "https:") = _
      rw [build_direct base ip c.services.remote "https" "https:" hgh hgp hspec hnfile
        (by decide) (by decide) (by decide) hnd1 (by rw [hsec] at hnd2; exact hnd2)]
      rfl
    | false =>
      show Except.ok
        (setProtocol (setPort (setHostname base ip) c.services.remote) "http:") = _
      rw [build_direct base ip c.services.remote "http" "http:" hgh hgp hspec hnfile
        (by decide) (by decide) (by decide) hnd1 (by rw [hsec] at hnd2; exact hnd2)]
      rfl
  · intro hproxy hip
    simp [remoteUrl, hproxy, hip]

def sampleContainer : NamedServiceContainer :=
  { password := "pw", services := { vnc := "5901", remote := "8080", ssh := "2201" },
    name := "alpha" }

def sampleOs : ServerOsInfo :=
  { version := "1.0", kernel := { type := "Linux", version := "6.1" } }

def sampleMemory : ServerMemoryInfo := { percentage := 50, free := 1024, total := 2048 }

def sampleCpu : ServerCpuInfo := { amount := 4, load := (1, 1, 1), cpus := [] }

def sampleProxyInfo : ProxyInfo :=
  { suffix := ".browsary.example", apiUrl := "https://api.browsary.example", servers := [] }

def sampleInfoProxy : ServerInfo :=
  { id := "srv1", secure := true, ip := none, proxy := some sampleProxyInfo,
    name := "server-one", os := sampleOs, memory := sampleMemory, cpu := sampleCpu }

def sampleInfoDirect : ServerInfo :=
  { id := "srv2", secure := false, ip := some "10.0.0.5", proxy := none,
    name := "server-two", os := sampleOs, memory := sampleMemory, cpu := sampleCpu }

def sampleInfoNoIp : ServerInfo := { sampleInfoDirect with ip := none }

def sampleBase : URLRecord :=
  { scheme := "http", username := "", hostname := "localhost", port := "39029", path := "/" }

theorem c2_vncUrl_witness :
    vncUrl sampleBase sampleInfoProxy sampleContainer = .ok
      { scheme := "wss", username := "", hostname := "vnc-alpha.browsary.example",
        port := "", path := "/" } ∧
    vncUrl sampleBase sampleInfoDirect sampleContainer = .ok
      { scheme := "ws", username := "", hostname := "10.0.0.5",
        port := "5901", path := "/" } :=
  ⟨(c2_vncUrl sampleBase sampleInfoProxy sampleContainer).1 sampleProxyInfo rfl
      (by refine ⟨by decide, by decide, by decide⟩),
   (c2_vncUrl sampleBase sampleInfoDirect sampleContainer).2.1 "10.0.0.5" rfl rfl
      (by refine ⟨by decide, by decide, by decide⟩)
      (by refine ⟨by decide, by decide, by decide, by decide⟩)
      (by decide) (by decide) (by decide) (by decide)⟩

theorem c3_remoteUrl_witness :
    remoteUrl sampleBase sampleInfoProxy sampleContainer = .ok
      { scheme := "https", username := "",
        hostname := "remote-pw-alpha.browsary.example", port := "", path := "/" } ∧
    remoteUrl sampleBase sampleInfoDirect sampleContainer = .ok
      { scheme := "http", username := "", hostname := "10.0.0.5",
        port := "8080", path := "/" } :=
  ⟨(c3_remoteUrl sampleBase sampleInfoProxy sampleContainer).1 sampleProxyInfo rfl
      (by refine ⟨by decide, by decide, by decide⟩),
   (c3_remoteUrl sampleBase sampleInfoDirect sampleContainer).2.1 "10.0.0.5" rfl rfl
      (by refine ⟨by decide, by decide, by decide⟩)
      (by refine ⟨by decide, by decide, by decide, by decide⟩)
      (by decide) (by decide) (by decide) (by decide)⟩

/-- C4, evaluated at the failing input: in direct mode `sshUrl` does not
produce an `ssh://` URL.  The WHATWG protocol setter silently ignores the
assignment of the non-special scheme `ssh` to a URL with the special
scheme `http`, so the returned URL keeps the base URL's scheme while the
`runner` username, the direct IP hostname and the container's SSH port
are set as the spec describes. -/
theorem c4_sshUrl_keeps_base_scheme :
    sshUrl sampleBase sampleInfoDirect sampleContainer = .ok
      { scheme := "http", username := "runner", hostname := "10.0.0.5",
        port := "2201", path := "/" } := by
  rfl

/-- C5, counterexample to the claim as stated: the no-proxy precondition
error of `serverScores` is raised only after the call has already issued
its `GET /` server-info request, so the request trace at the moment the
plain error is raised is not empty. -/
theorem c5_counterexample :
    serverScores sampleInfoDirect sampleErrResponse =
      ([HttpReq.root],
        .error (.plainError "This server does not support proxy scores.")) ∧
    ([HttpReq.root] : List HttpReq) ≠ [] :=
  ⟨rfl, by decide⟩

/-- C5 (amended): each domain precondition raises a plain error — not a
`BrowserClientError` — after the initial `serverInfo()` fetch but before
the call issues any further HTTP request: the request trace of the
failing call is exactly the single `GET /`. -/
theorem c5_amended (base : URLRecord) (info : ServerInfo)
    (c : NamedServiceContainer) (scoresResponse : Response) :
    (info.proxy = none →
      serverScores info scoresResponse =
        ([HttpReq.root],
          .error (.plainError "This server does not support proxy scores."))) ∧
    (∀ p, info.proxy = some p →
      sshUrlCall base info c =
        ([HttpReq.root],
          .error (.plainError "SSH access is not available via proxy"))) ∧
    (info.proxy = none → info.ip = none →
      vncUrlCall base info c = ([HttpReq.root], .error (.plainError "info.ip")) ∧
      remoteUrlCall base info c = ([HttpReq.root], .error (.plainError "info.ip")) ∧
      sshUrlCall base info c = ([HttpReq.root], .error (.plainError "info.ip"))) := by
  refine ⟨?_, ?_, ?_⟩
  · intro h
    simp [serverScores, h]
  · intro p h
    simp [sshUrlCall, sshUrl, h]
  · intro h hip
    refine ⟨?_, ?_, ?_⟩ <;>
      simp [vncUrlCall, remoteUrlCall, sshUrlCall, vncUrl, remoteUrl, sshUrl, h, hip]

theorem c5_amended_witness :
    serverScores sampleInfoDirect sampleErrResponse =
      ([HttpReq.root],
        .error (.plainError "This server does not support proxy scores.")) ∧
    sshUrlCall sampleBase sampleInfoProxy sampleContainer =
      ([HttpReq.root],
        .error (.plainError "SSH access is not available via proxy")) ∧
    vncUrlCall sampleBase sampleInfoNoIp sampleContainer =
      ([HttpReq.root], .error (.plainError "info.ip")) :=
  ⟨(c5_amended sampleBase sampleInfoDirect sampleContainer sampleErrResponse).1 rfl,
   (c5_amended sampleBase sampleInfoProxy sampleContainer sampleErrResponse).2.1
      sampleProxyInfo rfl,
   ((c5_amended sampleBase sampleInfoNoIp sampleContainer sampleErrResponse).2.2
      rfl rfl).1⟩

/-! ## Base62 arithmetic -/

theorem base62Char_index : ∀ d, d < 62 →
    BASE62_ALPHABET.findIdx? (fun x => x == base62Char d) = some d := by decide

theorem hexChar_val : ∀ d, d < 16 → hexVal? (hexChar d) = some d := by decide

theorem hexVal_lower_roundtrip : ∀ c ∈ HEX_LOWER, hexChar ((hexVal? c).getD 0) = c := by
  decide

theorem hexVal_lower_lt : ∀ c ∈ HEX_LOWER, (hexVal? c).getD 0 < 16 := by decide

theorem hexlower_ne_hyphen : ∀ c ∈ HEX_LOWER, (c != '-') = true := by decide

theorem base62Char_eq_zero : ∀ d, d < 62 → base62Char d = '0' → d = 0 := by decide

/-- The big-endian value of a digit list, as accumulated by the decode
loops. -/
def beval (b : Nat) (ds : List Nat) : Nat := ds.foldl (fun a d => a * b + d) 0

theorem foldl_beval (b : Nat) : ∀ (ds : List Nat) (a : Nat),
    ds.foldl (fun x d => x * b + d) a = a * b ^ ds.length + beval b ds := by
  intro ds
  induction ds with
  | nil => intro a; simp [beval]
  | cons d tl ih =>
    intro a
    have hb2 : beval b (d :: tl) = d * b ^ tl.length + beval b tl := by
      simp only [beval, List.foldl_cons, Nat.zero_mul, Nat.zero_add]
      exact ih d
    simp only [List.foldl_cons, List.length_cons]
    rw [ih (a * b + d), hb2]
    ring

theorem beval_cons (b d : Nat) (tl : List Nat) :
    beval b (d :: tl) = d * b ^ tl.length + beval b tl := by
  simp only [beval, List.foldl_cons, Nat.zero_mul, Nat.zero_add]
  exact foldl_beval b tl d

theorem beval_lt (b : Nat) (hb : 0 < b) :
    ∀ ds : List Nat, (∀ d ∈ ds, d < b) → beval b ds < b ^ ds.length := by
  intro ds
  induction ds with
  | nil => intro _; simp [beval]
  | cons d tl ih =>
    intro h
    have hd : d < b := h d (List.mem_cons_self d tl)
    have htl : beval b tl < b ^ tl.length :=
      ih (fun x hx => h x (List.mem_cons_of_mem d hx))
    rw [beval_cons]
    simp only [List.length_cons]
    calc d * b ^ tl.length + beval b tl
        < d * b ^ tl.length + b ^ tl.length := by omega
      _ = (d + 1) * b ^ tl.length := by ring
      _ ≤ b * b ^ tl.length := Nat.mul_le_mul_right _ hd
      _ = b ^ (tl.length + 1) := by ring

theorem beval_replicate_zero (b : Nat) : ∀ (k : Nat) (ds : List Nat),
    beval b (List.replicate k 0 ++ ds) = beval b ds := by
  intro k
  induction k with
  | zero => intro ds; simp
  | succ k ih =>
    intro ds
    have step : beval b (List.replicate (k + 1) 0 ++ ds) =
        beval b (List.replicate k 0 ++ ds) := by
      simp only [List.replicate_succ, List.cons_append, beval, List.foldl_cons,
        Nat.zero_mul, Nat.zero_add]
    rw [step, ih]

theorem beval_inj (b : Nat) (hb : 0 < b) :
    ∀ (ds₁ ds₂ : List Nat), ds₁.length = ds₂.length →
      (∀ d ∈ ds₁, d < b) → (∀ d ∈ ds₂, d < b) →
      beval b ds₁ = beval b ds₂ → ds₁ = ds₂ := by
  intro ds₁
  induction ds₁ with
  | nil =>
    intro ds₂ hlen _ _ _
    cases ds₂ with
    | nil => rfl
    | cons d tl => simp at hlen
  | cons d₁ t₁ ih =>
    intro ds₂ hlen h₁ h₂ hval
    cases ds₂ with
    | nil => simp at hlen
    | cons d₂ t₂ =>
      have hlen' : t₁.length = t₂.length := by simpa using hlen
      rw [beval_cons, beval_cons, hlen'] at hval
      have hBpos : 0 < b ^ t₂.length := pow_pos hb _
      have hb₁ : beval b t₁ < b ^ t₂.length := by
        rw [← hlen']
        exact beval_lt b hb t₁ (fun x hx => h₁ x (List.mem_cons_of_mem _ hx))
      have hb₂ : beval b t₂ < b ^ t₂.length :=
        beval_lt b hb t₂ (fun x hx => h₂ x (List.mem_cons_of_mem _ hx))
      have key : ∀ (x y : Nat), y < b ^ t₂.length →
          (x * b ^ t₂.length + y) / b ^ t₂.length = x := by
        intro x y hy
        rw [Nat.add_comm, Nat.mul_comm x (b ^ t₂.length),
          Nat.add_mul_div_left y x hBpos, Nat.div_eq_of_lt hy, Nat.zero_add]
      have hd : d₁ = d₂ := by
        rw [← key d₁ (beval b t₁) hb₁, hval, key d₂ (beval b t₂) hb₂]
      subst hd
      have hr : beval b t₁ = beval b t₂ := Nat.add_left_cancel hval
      have ht : t₁ = t₂ := ih t₂ hlen'
        (fun x hx => h₁ x (List.mem_cons_of_mem _ hx))
        (fun x hx => h₂ x (List.mem_cons_of_mem _ hx)) hr
      rw [ht]

theorem foldr_ofDigits (b : Nat) : ∀ L : List Nat,
    L.foldr (fun x y => y * b + x) 0 = Nat.ofDigits b L := by
  intro L
  induction L with
  | nil => simp [Nat.ofDigits_nil]
  | cons d tl ih =>
    simp only [List.foldr_cons, Nat.ofDigits_cons, ih, Nat.cast_id]
    ring

theorem beval_reverse_digits (b : Nat) (hb : 1 < b) (n : Nat) :
    beval b (Nat.digits b n).reverse = n := by
  have h1 : beval b (Nat.digits b n).reverse =
      (Nat.digits b n).foldr (fun x y => y * b + x) 0 := by
    simp [beval, List.foldl_reverse]
  rw [h1, foldr_ofDigits, Nat.ofDigits_digits]

theorem digits_len_le_of_lt_pow {b n k : Nat} (hb : 1 < b) (h : n < b ^ k) :
    (Nat.digits b n).length ≤ k := by
  by_contra hcon
  push_neg at hcon
  have hn : n ≠ 0 := by
    intro h0
    rw [h0] at hcon
    simp [Nat.digits_zero] at hcon
  have h2 : b ^ (Nat.digits b n).length ≤ b * n :=
    Nat.base_pow_length_digits_le b n hb hn
  have h3 : b ^ (k + 1) ≤ b ^ (Nat.digits b n).length :=
    Nat.pow_le_pow_right (by omega) (by omega)
  have h4 : b * b ^ k ≤ b * n := by
    calc b * b ^ k = b ^ (k + 1) := by ring
      _ ≤ b ^ (Nat.digits b n).length := h3
      _ ≤ b * n := h2
  have h5 : b ^ k ≤ n := Nat.le_of_mul_le_mul_left h4 (by omega)
  omega

theorem toDigitsLoop_eq (b : Nat) (ch : Nat → Char) (hb : 1 < b) :
    ∀ (fuel n : Nat) (acc : List Char), n < fuel →
      toDigitsLoop b ch fuel n acc = ((Nat.digits b n).reverse.map ch) ++ acc := by
  intro fuel
  induction fuel with
  | zero => intro n acc h; omega
  | succ fuel ih =>
    intro n acc h
    by_cases hn : n = 0
    · subst hn
      simp [toDigitsLoop, Nat.digits_zero]
    · have hdiv : n / b < fuel := by
        have h1 : n / b < n := Nat.div_lt_self (Nat.pos_of_ne_zero hn) hb
        omega
      simp only [toDigitsLoop, if_neg hn]
      rw [ih (n / b) (ch (n % b) :: acc) hdiv]
      rw [Nat.digits_def' hb (Nat.pos_of_ne_zero hn)]
      simp [List.append_assoc]

theorem decodeLoop_map : ∀ (ds : List Nat), (∀ d ∈ ds, d < 62) → ∀ n : Nat,
    decodeLoop (ds.map base62Char) n = .ok (ds.foldl (fun a d => a * 62 + d) n) := by
  intro ds
  induction ds with
  | nil => intro _ n; rfl
  | cons d tl ih =>
    intro h n
    have hd : d < 62 := h d (List.mem_cons_self d tl)
    simp only [List.map_cons, decodeLoop, base62Char_index d hd]
    exact ih (fun x hx => h x (List.mem_cons_of_mem d hx)) (n * 62 + d)

theorem decode_encodeNat62 (n : Nat) : decodeLoop (encodeNat62 n).data 0 = .ok n := by
  by_cases hn : n = 0
  · subst hn; rfl
  · have hchars : toDigitsLoop 62 base62Char (n + 1) n [] =
        (Nat.digits 62 n).reverse.map base62Char := by
      simpa using toDigitsLoop_eq 62 base62Char (by omega) (n + 1) n [] (by omega)
    have hne : (Nat.digits 62 n).reverse.map base62Char ≠ [] := by
      simp [Nat.digits_ne_nil_iff_ne_zero.mpr hn]
    unfold encodeNat62
    rw [hchars, if_neg hne]
    show decodeLoop ((Nat.digits 62 n).reverse.map base62Char) 0 = .ok n
    have hvalid : ∀ d ∈ (Nat.digits 62 n).reverse, d < 62 := fun d hd =>
      Nat.digits_lt_base (by omega) (List.mem_reverse.mp hd)
    rw [decodeLoop_map _ hvalid 0]
    have hv := beval_reverse_digits 62 (by omega) n
    simp only [beval] at hv
    rw [hv]

theorem parseHexLoop_map : ∀ (ds : List Nat), (∀ d ∈ ds, d < 16) → ∀ n : Nat,
    parseHexLoop (ds.map hexChar) n = some (ds.foldl (fun a d => a * 16 + d) n) := by
  intro ds
  induction ds with
  | nil => intro _ n; rfl
  | cons d tl ih =>
    intro h n
    have hd : d < 16 := h d (List.mem_cons_self d tl)
    simp only [List.map_cons, parseHexLoop, hexChar_val d hd]
    exact ih (fun x hx => h x (List.mem_cons_of_mem d hx)) (n * 16 + d)

theorem toHex_pad (ds : List Nat) (hlen : ds.length = 32) (hds : ∀ d ∈ ds, d < 16) :
    padStart32 (toHexChars (beval 16 ds)) = ds.map hexChar := by
  by_cases h0 : beval 16 ds = 0
  · have hz : ds = List.replicate 32 0 := by
      apply beval_inj 16 (by omega) ds (List.replicate 32 0)
      · simp [hlen]
      · exact hds
      · intro d hd
        have := List.eq_of_mem_replicate hd
        omega
      · rw [h0]
        have := beval_replicate_zero 16 32 []
        simpa using this.symm
    rw [h0, hz]
    show padStart32 ['0'] = (List.replicate 32 0).map hexChar
    rw [List.map_replicate]
    show List.replicate 31 '0' ++ ['0'] = List.replicate 32 '0'
    exact (List.replicate_succ' 31 '0').symm
  · have hlt : beval 16 ds < 16 ^ 32 := by
      have := beval_lt 16 (by omega) ds hds
      rwa [hlen] at this
    have hk : (Nat.digits 16 (beval 16 ds)).length ≤ 32 :=
      digits_len_le_of_lt_pow (by omega) hlt
    have hchars : toHexChars (beval 16 ds) =
        (Nat.digits 16 (beval 16 ds)).reverse.map hexChar := by
      unfold toHexChars
      rw [toDigitsLoop_eq 16 hexChar (by omega) (beval 16 ds + 1) (beval 16 ds) []
        (by omega)]
      rw [if_neg (by simp [Nat.digits_ne_nil_iff_ne_zero.mpr h0])]
      simp
    rw [hchars]
    unfold padStart32
    rw [List.length_map, List.length_reverse]
    have hdig : List.replicate (32 - (Nat.digits 16 (beval 16 ds)).length) 0 ++
        (Nat.digits 16 (beval 16 ds)).reverse = ds := by
      apply beval_inj 16 (by omega)
      · simp only [List.length_append, List.length_replicate, List.length_reverse, hlen]
        omega
      · intro d hd
        rcases List.mem_append.mp hd with hmem | hmem
        · have := List.eq_of_mem_replicate hmem
          omega
        · exact Nat.digits_lt_base (by omega) (List.mem_reverse.mp hmem)
      · exact hds
      · rw [beval_replicate_zero, beval_reverse_digits 16 (by omega)]
    calc List.replicate (32 - (Nat.digits 16 (beval 16 ds)).length) '0' ++
          (Nat.digits 16 (beval 16 ds)).reverse.map hexChar
        = (List.replicate (32 - (Nat.digits 16 (beval 16 ds)).length) 0).map hexChar ++
          (Nat.digits 16 (beval 16 ds)).reverse.map hexChar := by
          rw [List.map_replicate]
          rfl
      _ = (List.replicate (32 - (Nat.digits 16 (beval 16 ds)).length) 0 ++
          (Nat.digits 16 (beval 16 ds)).reverse).map hexChar := by
          rw [List.map_append]
      _ = ds.map hexChar := by rw [hdig]

theorem filter_hyphenate (cs : List Char) (h : ∀ c ∈ cs, c ∈ HEX_LOWER) :
    (hyphenate cs).filter (fun c => c != '-') = cs := by
  have hsub : ∀ l : List Char, (∀ c ∈ l, c ∈ cs) → l.filter (fun c => c != '-') = l :=
    fun l hl => List.filter_eq_self.mpr (fun a ha => hexlower_ne_hyphen a (h a (hl a ha)))
  have hdash : (('-' : Char) != '-') = false := by decide
  unfold hyphenate
  simp only [List.filter_append, List.filter_cons, hdash, if_false, Bool.false_eq_true]
  rw [hsub (cs.take 8) (fun c hc => List.mem_of_mem_take hc),
    hsub ((cs.drop 8).take 4) (fun c hc => List.mem_of_mem_drop (List.mem_of_mem_take hc)),
    hsub ((cs.drop 12).take 4) (fun c hc => List.mem_of_mem_drop (List.mem_of_mem_take hc)),
    hsub ((cs.drop 16).take 4) (fun c hc => List.mem_of_mem_drop (List.mem_of_mem_take hc)),
    hsub (cs.drop 20) (fun c hc => List.mem_of_mem_drop hc)]
  have e12 : (cs.drop 8).drop 4 = cs.drop 12 := by rw [List.drop_drop]
  have e16 : (cs.drop 12).drop 4 = cs.drop 16 := by rw [List.drop_drop]
  have e20 : (cs.drop 16).drop 4 = cs.drop 20 := by rw [List.drop_drop]
  have h16 : (cs.drop 16).take 4 ++ cs.drop 20 = cs.drop 16 := by
    rw [← e20]
    exact List.take_append_drop 4 (cs.drop 16)
  have h12 : (cs.drop 12).take 4 ++ cs.drop 16 = cs.drop 12 := by
    rw [← e16]
    exact List.take_append_drop 4 (cs.drop 12)
  have h8 : (cs.drop 8).take 4 ++ cs.drop 12 = cs.drop 8 := by
    rw [← e12]
    exact List.take_append_drop 4 (cs.drop 8)
  rw [h16, h12, h8]
  exact List.take_append_drop 8 cs

/-- C7: for every UUID in canonical hyphenated form (32 lowercase hex
digits, 8-4-4-4-12), decoding the base62 encoding returns the original
string exactly; the all-zero UUID encodes to the degenerate string `"0"`,
which decodes back to the all-zero UUID. -/
theorem c7_base62_roundtrip :
    (∀ u : String, CanonicalUuid u →
      (encodeUuidToBase62 u).bind decodeBase62ToUuid = Except.ok u) ∧
    encodeUuidToBase62 zeroUuid = Except.ok "0" ∧
    decodeBase62ToUuid "0" = Except.ok zeroUuid := by
  refine ⟨?_, by rfl, by rfl⟩
  intro u hu
  obtain ⟨cs, hlen, hhex, hdata⟩ := hu
  have hfilter : u.data.filter (fun c => c != '-') = cs := by
    rw [hdata]
    exact filter_hyphenate cs hhex
  have hds_lt : ∀ d ∈ cs.map (fun c => (hexVal? c).getD 0), d < 16 := by
    intro d hd
    obtain ⟨c, hc, rfl⟩ := List.mem_map.mp hd
    exact hexVal_lower_lt c (hhex c hc)
  have hcs_eq : (cs.map (fun c => (hexVal? c).getD 0)).map hexChar = cs := by
    rw [List.map_map]
    conv_rhs => rw [← List.map_id cs]
    apply List.map_congr_left
    intro c hc
    simpa using hexVal_lower_roundtrip c (hhex c hc)
  have hparse : parseHexLoop cs 0 =
      some (beval 16 (cs.map (fun c => (hexVal? c).getD 0))) := by
    conv_lhs => rw [← hcs_eq]
    exact parseHexLoop_map _ hds_lt 0
  have hds_len : (cs.map (fun c => (hexVal? c).getD 0)).length = 32 := by
    rw [List.length_map, hlen]
  have hencode : encodeUuidToBase62 u =
      .ok (encodeNat62 (beval 16 (cs.map (fun c => (hexVal? c).getD 0)))) := by
    unfold encodeUuidToBase62
    rw [hfilter, if_neg (by rw [hlen]; omega), hparse]
  have hdecode : decodeBase62ToUuid
      (encodeNat62 (beval 16 (cs.map (fun c => (hexVal? c).getD 0)))) = .ok u := by
    unfold decodeBase62ToUuid
    rw [decode_encodeNat62]
    show Except.ok (String.mk (hyphenate (padStart32 (toHexChars
      (beval 16 (cs.map (fun c => (hexVal? c).getD 0))))))) = Except.ok u
    rw [toHex_pad _ hds_len hds_lt, hcs_eq, ← hdata]
  rw [hencode]
  show decodeBase62ToUuid (encodeNat62 (beval 16 (cs.map (fun c => (hexVal? c).getD 0)))) =
    Except.ok u
  exact hdecode

theorem c7_base62_roundtrip_witness :
    (encodeUuidToBase62 "123e4567-e89b-12d3-a456-426614174000").bind decodeBase62ToUuid =
      Except.ok "123e4567-e89b-12d3-a456-426614174000" :=
  c7_base62_roundtrip.1 "123e4567-e89b-12d3-a456-426614174000"
    ⟨"123e4567e89b12d3a456426614174000".data, by decide, by decide, by decide⟩

theorem decodeLoop_invalid : ∀ (pre : List Char) (c : Char) (post : List Char) (n : Nat),
    (∀ x ∈ pre, (BASE62_ALPHABET.findIdx? (fun y => y == x)).isSome = true) →
    BASE62_ALPHABET.findIdx? (fun y => y == c) = none →
    decodeLoop (pre ++ c :: post) n =
      .error ("Invalid base62 character: " ++ toString c) := by
  intro pre
  induction pre with
  | nil =>
    intro c post n _ hc
    simp only [List.nil_append, decodeLoop, hc]
  | cons x xs ih =>
    intro c post n hpre hc
    have hx : (BASE62_ALPHABET.findIdx? (fun y => y == x)).isSome = true :=
      hpre x (List.mem_cons_self x xs)
    obtain ⟨i, hi⟩ := Option.isSome_iff_exists.mp hx
    simp only [List.cons_append, decodeLoop, hi]
    exact ih c post (n * 62 + i) (fun y hy => hpre y (List.mem_cons_of_mem x hy)) hc

/-- C8: when the input splits as a prefix of alphabet characters followed
by a character `c` outside the 62-character alphabet, decoding fails with
the invalid-character error naming `c` — the first such character
encountered. -/
theorem c8_invalid_char (s : String) (pre : List Char) (c : Char) (post : List Char)
    (hsplit : s.data = pre ++ c :: post)
    (hpre : ∀ x ∈ pre, (BASE62_ALPHABET.findIdx? (fun y => y == x)).isSome = true)
    (hc : BASE62_ALPHABET.findIdx? (fun y => y == c) = none) :
    decodeBase62ToUuid s = .error ("Invalid base62 character: " ++ toString c) := by
  unfold decodeBase62ToUuid
  rw [hsplit, decodeLoop_invalid pre c post 0 hpre hc]

theorem c8_invalid_char_witness :
    decodeBase62ToUuid "ab!cd" = .error ("Invalid base62 character: " ++ toString '!') :=
  c8_invalid_char "ab!cd" ['a', 'b'] '!' ['c', 'd'] rfl (by decide) (by decide)

/-- `encodeUuidToBase62` never returns the string `"00"`: the encoding has
no leading zero digits. -/
theorem encode_ne_ok_00 (u : String) : encodeUuidToBase62 u ≠ .ok "00" := by
  intro h
  simp only [encodeUuidToBase62] at h
  split at h
  · exact Except.noConfusion h
  · split at h
    · exact Except.noConfusion h
    · rename_i n hn
      injection h with he
      by_cases h0 : n = 0
      · subst h0
        simp [encodeNat62, toDigitsLoop] at he
      · have hchars : toDigitsLoop 62 base62Char (n + 1) n [] =
            (Nat.digits 62 n).reverse.map base62Char := by
          simpa using toDigitsLoop_eq 62 base62Char (by omega) (n + 1) n [] (by omega)
        have hne : (Nat.digits 62 n).reverse.map base62Char ≠ [] := by
          simp [Nat.digits_ne_nil_iff_ne_zero.mpr h0]
        unfold encodeNat62 at he
        rw [hchars, if_neg hne] at he
        have hlist : (Nat.digits 62 n).reverse.map base62Char = ['0', '0'] := by
          have := congrArg String.data he
          simpa using this
        have hlen2 : (Nat.digits 62 n).length = 2 := by
          have := congrArg List.length hlist
          simpa using this
        obtain ⟨a, b, hab⟩ := List.length_eq_two.mp hlen2
        rw [hab] at hlist
        simp at hlist
        obtain ⟨hb0, ha0⟩ := hlist
        have hb_mem : b ∈ Nat.digits 62 n := by rw [hab]; simp
        have hblt : b < 62 := Nat.digits_lt_base (by omega) hb_mem
        have hbz : b = 0 := base62Char_eq_zero b hblt hb0
        have ha_mem : a ∈ Nat.digits 62 n := by rw [hab]; simp
        have halt : a < 62 := Nat.digits_lt_base (by omega) ha_mem
        have hn_eq : n = a := by
          have hofd := Nat.ofDigits_digits 62 n
          rw [hab, hbz] at hofd
          simp [Nat.ofDigits_cons, Nat.ofDigits_nil, Nat.cast_id] at hofd
          omega
        have hnlt : n < 62 := by omega
        have hdig_a : Nat.digits 62 n = [n] := by
          rw [Nat.digits_def' (show (1:Nat) < 62 by omega) (Nat.pos_of_ne_zero h0)]
          rw [Nat.mod_eq_of_lt hnlt, Nat.div_eq_of_lt hnlt]
          simp
        rw [hdig_a] at hab
        simp at hab

/-- C10: decoding ignores leading `0` digits — decoding `"0" ++ s` agrees
with decoding `s` for every alphabet string `s`; the empty string decodes
to the all-zero UUID; decoding is therefore not injective (`"0"` and `""`
decode equally), and `encodeUuidToBase62` has no right inverse on strings
(no `g` satisfies `encode (g s) = s` for all `s`, since no UUID encodes
to `"00"`). -/
theorem c10_decode_leading_zeros :
    (∀ s : String,
      (∀ x ∈ s.data, (BASE62_ALPHABET.findIdx? (fun y => y == x)).isSome = true) →
      decodeBase62ToUuid ("0" ++ s) = decodeBase62ToUuid s) ∧
    decodeBase62ToUuid "" = Except.ok zeroUuid ∧
    (decodeBase62ToUuid "0" = decodeBase62ToUuid "" ∧ ("0" : String) ≠ "") ∧
    ¬ ∃ g : String → String, ∀ s : String, encodeUuidToBase62 (g s) = Except.ok s := by
  refine ⟨fun s _ => rfl, by rfl, ⟨by rfl, by decide⟩, ?_⟩
  rintro ⟨g, hg⟩
  exact encode_ne_ok_00 (g "00") (hg "00")

theorem c10_decode_leading_zeros_witness :
    decodeBase62ToUuid ("0" ++ "Zz9") = decodeBase62ToUuid "Zz9" :=
  c10_decode_leading_zeros.1 "Zz9" (by decide)

end Browsary
